import Mathlib

/-
Verification development for the venice-cli repository (packaging and
device-upload pipeline).  Rust source files are shallowly embedded as Lean
definitions: byte strings become `List Char` (all names involved are ASCII),
machine integers become `Nat`/`Int`, filesystem and device interactions become
explicit oracle structures, and fallible operations return `Except`/`Option`.
-/

namespace VeniceCli

/-! ## Decimal digits (Rust integer `Display`/`FromStr` on `u32`/`u8`) -/

/-- The character for a single decimal digit value (values ≥ 10 never arise). -/
def digitChar : Nat → Char
  | 0 => '0'
  | 1 => '1'
  | 2 => '2'
  | 3 => '3'
  | 4 => '4'
  | 5 => '5'
  | 6 => '6'
  | 7 => '7'
  | 8 => '8'
  | 9 => '9'
  | _ => '*'

/-- Numeric value of a decimal digit character. -/
def charVal (c : Char) : Nat := c.toNat - 48

/-- Little-endian decimal digits of `n`, computed with explicit fuel so that the
definition is structurally recursive (the fuel `n` itself always suffices). -/
def digitsAux : Nat → Nat → List Nat
  | 0, _ => []
  | _ + 1, 0 => []
  | fuel + 1, n + 1 => ((n + 1) % 10) :: digitsAux fuel ((n + 1) / 10)

/-- Decimal rendering of a natural number, as Rust's `Display` for unsigned
integers produces it (`0` renders as `"0"`). -/
def renderNat (n : Nat) : List Char :=
  if n = 0 then ['0'] else ((digitsAux n n).map digitChar).reverse

/-- Rust's `u32::from_str`: an optional leading `'+'`, then one or more ASCII
decimal digits, value required to fit in 32 bits. -/
def parseU32 (s : List Char) : Option Nat :=
  let ds := if s.head? = some '+' then s.tail else s
  if ds = [] then none
  else if ds.all Char.isDigit then
    let v := ds.foldl (fun a c => a * 10 + charVal c) 0
    if v < 4294967296 then some v else none
  else none

/-- Rust's `str::split` on a single separator character (an empty input yields
one empty piece, a trailing separator yields a trailing empty piece). -/
def splitOnChar (c : Char) : List Char → List (List Char)
  | [] => [[]]
  | x :: xs =>
    match splitOnChar c xs with
    | [] => [[]]
    | y :: ys => if x = c then [] :: y :: ys else (x :: y) :: ys

/-! ## `src/runtime.rs` — runtime versions, file names, parsing -/

/-- `RtVersion` from `src/runtime.rs` (fields are Rust `u32`). -/
structure RtVersion where
  major : Nat
  minor : Nat
  patch : Nat
  deriving DecidableEq

/-- `RtBin` from `src/runtime.rs`. -/
structure RtBin where
  version : RtVersion
  deriving DecidableEq

/-- `RtVersionParseError` from `src/runtime.rs` (the `InvalidNumber` payload,
a `u32` parse error, is elided). -/
inductive RtVersionParseError where
  | tooShort
  | tooLong
  | malformed
  | invalidNumber
  deriving DecidableEq

/-- `RtBinParseError` from `src/runtime.rs`. -/
inductive RtBinParseError where
  | versionError (e : RtVersionParseError)
  | badPre
  | badExt
  deriving DecidableEq

/-- `impl FromStr for RtVersion` in `src/runtime.rs`: requires a leading `'v'`,
then exactly three `'.'`-separated `u32` fields. -/
def rtVersionFromStr (s : List Char) : Except RtVersionParseError RtVersion :=
  match s with
  | [] => .error .tooShort
  | c :: rest =>
    if c ≠ 'v' then .error .malformed
    else
      match splitOnChar '.' rest with
      | [] => .error .tooShort
      | p1 :: r1 =>
        match parseU32 p1 with
        | none => .error .invalidNumber
        | some major =>
          match r1 with
          | [] => .error .tooShort
          | p2 :: r2 =>
            match parseU32 p2 with
            | none => .error .invalidNumber
            | some minor =>
              match r2 with
              | [] => .error .tooShort
              | p3 :: r3 =>
                match parseU32 p3 with
                | none => .error .invalidNumber
                | some patch =>
                  if r3 = [] then .ok ⟨major, minor, patch⟩
                  else .error .tooLong

/-- The fixed file-name pieces of `impl FromStr for RtBin` in `src/runtime.rs`. -/
def rtBinPre : List Char := "venice-".toList

/-- The fixed extension piece of `impl FromStr for RtBin`. -/
def rtBinExt : List Char := ".bin".toList

/-- `impl FromStr for RtBin` in `src/runtime.rs`: strip the `"venice-"` front
piece and the `".bin"` extension, parse the middle as an `RtVersion`. -/
def rtBinFromStr (s : List Char) : Except RtBinParseError RtBin :=
  if ¬ rtBinPre.isPrefixOf s then .error .badPre
  else if ¬ rtBinExt.isSuffixOf s then .error .badExt
  else
    match rtVersionFromStr
        ((s.drop rtBinPre.length).take (s.length - rtBinPre.length - rtBinExt.length)) with
    | .ok v => .ok ⟨v⟩
    | .error e => .error (.versionError e)

/-- `impl Display for RtVersion` in `src/runtime.rs`: `v{major}.{minor}.{patch}`
with decimal components. -/
def rtVersionDisplay (v : RtVersion) : List Char :=
  'v' :: (renderNat v.major ++ ('.' :: (renderNat v.minor ++ ('.' :: renderNat v.patch))))

/-- The runtime image file name `venice-{version}.bin` used by `download` and
`version_exists` in `src/runtime.rs` (and as the uploaded runtime's on-device
name). -/
def rtFileName (v : RtVersion) : List Char := rtBinPre ++ rtVersionDisplay v ++ rtBinExt

/-- `installed_versions` from `src/runtime.rs`, restricted to its pure core:
every directory entry name is parsed with `RtVersion`'s `FromStr` (note: not
`RtBin`'s), and successfully parsed versions are collected. -/
def installed_versions (names : List (List Char)) : List RtVersion :=
  names.filterMap fun n =>
    match rtVersionFromStr n with
    | .ok v => some v
    | .error _ => none

/-! ## `src/build.rs` — module names, staleness, scanner, builder -/

/-- `PACKAGE_INIT_NAME` from `src/build.rs` (`b"__init__"`). -/
def PACKAGE_INIT_NAME : List Char := "__init__".toList

/-- `PYTHON_MOD_SEP` from `src/build.rs` (`b'.'`). -/
def PYTHON_MOD_SEP : Char := '.'

/-- The platform path separator (`std::path::MAIN_SEPARATOR` on the targeted
Unix-like platforms). -/
def MAIN_SEPARATOR : Char := '/'

/-- `SrcModule::python_name` from `src/build.rs`.  `name` is the module's path
relative to the source root with the extension already dropped (as produced by
`SrcModule::from_path`); `package_name` is the manifest's declared name. -/
def python_name (package_name : List Char) (name : List Char) : List Char :=
  let name_bytes :=
    if PACKAGE_INIT_NAME.isSuffixOf name then
      name.take (name.length - PACKAGE_INIT_NAME.length)
    else name
  let joined := package_name ++ PYTHON_MOD_SEP :: name_bytes
  let replaced := joined.map fun c => if c = MAIN_SEPARATOR then PYTHON_MOD_SEP else c
  if replaced.getLast? = some PYTHON_MOD_SEP then replaced.dropLast else replaced

/-- `SrcModule::module_flags` from `src/build.rs`: bit 0 marks a module, bit 1
marks a package (its name ends with the package marker). -/
def module_flags (name : List Char) : Nat :=
  if PACKAGE_INIT_NAME.isSuffixOf name then 3 else 1

/-- `SrcModule::needs_rebuild` from `src/build.rs`: modification times are
read from filesystem metadata, a missing time falls back to the Unix epoch
(modelled as `0`), and the comparison is the non-strict `src >= build`. -/
def needs_rebuild (srcModified buildModified : Option Nat) : Bool :=
  decide (srcModified.getD 0 ≥ buildModified.getD 0)

/-- A directory subtree of the source root: whether it contains the package
marker `__init__.py`, the names of its files with the `py` source extension,
and its subdirectories. Other directory entries are irrelevant to the scanner
and elided. -/
inductive FsDir where
  | node (hasInit : Bool) (files : List String) (subdirs : List FsDir)

/-- Whether the directory contains the `__init__.py` package marker. -/
def FsDir.hasInit : FsDir → Bool
  | .node i _ _ => i

mutual

/-- `find_modules_inner` from `src/build.rs`: a directory without the
`__init__.py` marker contributes nothing at all; otherwise its own source
files are collected and every subdirectory is visited recursively.  A
collected module is identified by the index path of the directory chain that
reached it together with its file name. -/
def find_modules_inner : FsDir → List (List Nat × String)
  | .node hasInit files subdirs =>
    if hasInit then
      files.map (fun f => (([] : List Nat), f)) ++ findInSubdirs subdirs 0
    else []

/-- The recursive walk over a marked directory's subdirectories, tagging each
collected module with the index of the subdirectory it came from. -/
def findInSubdirs : List FsDir → Nat → List (List Nat × String)
  | [], _ => []
  | t :: ts, i =>
    (find_modules_inner t).map (fun e => (i :: e.1, e.2)) ++ findInSubdirs ts (i + 1)

end

/-- The subtree of a directory tree reached by following a path of
subdirectory indices. -/
def subtreeAt : FsDir → List Nat → Option FsDir
  | t, [] => some t
  | .node _ _ subdirs, i :: p =>
    match subdirs.get? i with
    | some s => subtreeAt s p
    | none => none

/-! ### The module builder and table cache (`build_modules` / `build`) -/

/-- `Cdc2Ack` from the serial protocol: the acknowledgement codes the upload
code inspects (`Ack`, `NackProgramFile`) plus a catch-all for every other nack
code. -/
inductive Cdc2Ack where
  | ack
  | nackProgramFile
  | nackOther (code : Nat)
  deriving DecidableEq

/-- `SerialError` from the transport crate, abstracted: a handshake timeout, a
nack reply, or any other transport failure. -/
inductive SerialError where
  | timeout
  | nack (a : Cdc2Ack)
  | other (code : Nat)
  deriving DecidableEq

/-- `CliError` from `src/errors.rs`.  Error payloads irrelevant to the claims
(io error values, parse diagnostics) are reduced to plain data. -/
inductive CliError where
  | io (code : Nat)
  | slotOutOfRange
  | serial (e : SerialError)
  | noDevice
  | radioChannelDisconnectTimeout
  | radioChannelReconnectTimeout
  | invalidVersion
  | unreleasedVersion
  | manifest
  | compiler (file : String) (stderr : String)
  | network (code : Nat)
  | homeDirNotFound
  | noManifest
  deriving DecidableEq

/-- The per-module state `build_modules` observes: the source and artifact
modification times (as read for `needs_rebuild`), how the `mpy-cross`
subprocess would behave for this module, the artifact bytes on disk after
compilation, and the module's root-relative name (extension dropped). -/
structure SrcModuleState where
  srcMtime : Option Nat
  buildMtime : Option Nat
  /-- Whether the `mpy-cross` subprocess starts at all (`Command::output` is
  `Ok`); a start failure is silently ignored by the code. -/
  compileStarted : Bool
  /-- Whether a started subprocess exits successfully. -/
  compileOk : Bool
  stderr : String
  artifact : List Nat
  relName : List Char

/-- Staleness of one module per `SrcModule::needs_rebuild`. -/
def moduleNeedsRebuild (m : SrcModuleState) : Bool :=
  needs_rebuild m.srcMtime m.buildMtime

/-- `build_modules` from `src/build.rs`: walk the modules in order, skip the
ones that are not stale, invoke the compiler for each stale one (counted in
the second component), abort with a `Compiler` error when a started subprocess
exits unsuccessfully, and report whether any module was rebuilt. -/
def build_modules : List SrcModuleState → Bool → Nat → Except CliError (Bool × Nat)
  | [], rebuildTable, calls => .ok (rebuildTable, calls)
  | m :: ms, rebuildTable, calls =>
    if moduleNeedsRebuild m then
      if m.compileStarted ∧ ¬ m.compileOk then
        .error (.compiler (String.mk m.relName) m.stderr)
      else build_modules ms true (calls + 1)
    else build_modules ms rebuildTable calls

/-- `VENDOR_ID` from `src/main.rs`. -/
def VENDOR_ID : Nat := 0x11235813

/-- `VENICE_PACKAGE_NAME_PROGRAM` from `src/build.rs`. -/
def VENICE_PACKAGE_NAME_PROGRAM : List Char := "__venice__package_name__".toList

/-- An entry handed to the table builder: name bytes and payload bytes. -/
structure ProgramEntry where
  name : List Char
  payload : List Nat
  deriving DecidableEq

/-- Modelled from the spec: the external `venice_program_table` crate's
`VptBuilder::build` is not part of this repository's sources.  Following the
spec's layout it serializes, in order, a fixed header (magic constant,
name-pool offset, bytecode-pool offset, entry count), fixed-size pointer
records (name length, bytecode length) per entry, the concatenated name bytes,
and the concatenated payload bytes.  Only its determinism matters for the
claims below. -/
def vptBuild (vendor : Nat) (entries : List ProgramEntry) : List Nat :=
  let count := entries.length
  let nameLen := (entries.map (fun e => e.name.length)).sum
  let nameOff := 4 + 2 * count
  let byteOff := nameOff + nameLen
  ([vendor, nameOff, byteOff, count] ++
    entries.flatMap (fun e => [e.name.length, e.payload.length])) ++
  entries.flatMap (fun e => e.name.map Char.toNat) ++
  entries.flatMap (fun e => e.payload)

/-- The filesystem/manifest state the `build` function in `src/build.rs`
operates on: the manifest lookup outcome and declared package name, the
discovered modules (in discovery order), and the cached table file's bytes if
`build/out.vpt` exists. -/
structure BuildFs where
  manifestResult : Except CliError Unit
  packageName : List Char
  modules : List SrcModuleState
  tableCache : Option (List Nat)

/-- The outcome of `build`: the table bytes it returns, whether it regenerated
them (as opposed to reading the cached file back), and how many compiler
invocations happened. -/
structure BuildOut where
  bytes : List Nat
  regenerated : Bool
  compilerCalls : Nat
  deriving DecidableEq

/-- The entry list `build` feeds to the table builder: the synthetic
package-name entry (flag byte 0) followed by one entry per module, each
payload prefixed with its flag byte. -/
def tableEntries (fs : BuildFs) : List ProgramEntry :=
  ⟨VENICE_PACKAGE_NAME_PROGRAM, 0 :: fs.packageName.map Char.toNat⟩ ::
    fs.modules.map fun m =>
      ⟨python_name fs.packageName m.relName, module_flags m.relName :: m.artifact⟩

/-- `build` from `src/build.rs` (its pure core): parse the manifest, run
`build_modules`, regenerate the table when a module was rebuilt or when no
cached table file exists, otherwise read the previously written bytes back
unchanged. -/
def build (fs : BuildFs) : Except CliError BuildOut :=
  match fs.manifestResult with
  | .error e => .error e
  | .ok _ =>
    match build_modules fs.modules false 0 with
    | .error e => .error e
    | .ok (rebuilt, calls) =>
      match fs.tableCache with
      | none => .ok ⟨vptBuild VENDOR_ID (tableEntries fs), true, calls⟩
      | some cached =>
        if rebuilt then .ok ⟨vptBuild VENDOR_ID (tableEntries fs), true, calls⟩
        else .ok ⟨cached, false, calls⟩

/-! ## `src/upload.rs` — device session and upload orchestrator

The connection is half-duplex and exclusively owned, so a run is modelled as a
pure function of an oracle (`Env`) fixing every reply the device would give,
together with the trace of requests/commands the code issues, in order. -/

/-- `RadioChannel` from the serial protocol crate. -/
inductive RadioChannel where
  | pit
  | download
  deriving DecidableEq

/-- `ProductType` reported by `GetSystemVersion`. -/
inductive ProductType where
  | brain
  | controller
  deriving DecidableEq

/-- `FileExitAction` from the serial protocol crate (the post-upload action). -/
inductive FileExitAction where
  | halt
  | doNothing
  | showRunScreen
  | runProgram
  deriving DecidableEq

/-- The slice of `GetFileMetadataReplyPayload` the claims are about: the
remote file's reported content checksum (remaining fields elided). -/
structure FileMeta where
  crc32 : Nat
  deriving DecidableEq

/-- A `GetFileMetadata` handshake reply: its acknowledgement code and its
payload when present. -/
structure MetadataReply where
  ack : Cdc2Ack
  payload : Option FileMeta
  deriving DecidableEq

/-- The slice of an `UploadFile` command the claims are about: target file
name, content bytes, optional linked file name, and post-upload action. -/
structure UploadCmd where
  filename : List Char
  data : List Nat
  linkedFile : Option (List Char)
  afterUpload : FileExitAction
  deriving DecidableEq

/-- One observable step of the upload pipeline. The two radio-silence /
radio-reconnect polling loops are driven by their own oracles below and do
not appear as individual events. -/
inductive UploadEvent where
  /-- `tokio::spawn(open_connection())`: the connection-opening task (and with
  it the connection attempt) is started. -/
  | connSpawn
  /-- `conn_task.await`: the connection task's result is awaited. -/
  | connAwait
  | getRadioStatus
  | getSystemVersion
  | getSystemFlags
  | selectChannel (ch : RadioChannel)
  | getFileMetadata (name : List Char)
  | uploadFile (cmd : UploadCmd)
  deriving DecidableEq

/-- A trace of pipeline events, in execution order. -/
abbrev Trace := List UploadEvent

/-- One attempt of a bounded request/reply handshake: the attempt times out,
the device replies successfully, or the transport fails with some other
error. -/
inductive HandshakeAttempt where
  | timedOut
  | replied
  | failed (e : SerialError)

/-- `Manifest` from `src/manifest.rs` (fields the upload path reads). -/
structure Manifest where
  name : List Char
  slot : Nat
  icon : Nat

/-- The oracle for one `upload` run: outcomes of the filesystem, network and
build steps, and every device reply the session would receive, in the order
the code asks for them. -/
structure Env where
  /-- `find_manifest` + read + TOML parse, condensed. -/
  manifestResult : Except CliError Manifest
  /-- The semver parse of `manifest.venice_version`, converted to the runtime
  version it selects (a parse failure aborts the run). -/
  versionResult : Except CliError RtVersion
  /-- `build(dir)`: the program table bytes. -/
  buildResult : Except CliError (List Nat)
  /-- The background runtime fetch task's result (awaited only when the
  runtime needs uploading). -/
  fetchResult : Except CliError (List Nat)
  /-- `open_connection()`: the spawned connection task's result. -/
  connResult : Except CliError Unit
  /-- The serialized INI configuration bytes (`serde_ini::to_vec`). -/
  iniData : List Nat
  /-- `GetRadioStatus` reply: the current channel code (signed). -/
  radioStatus : Except SerialError Int
  /-- `GetSystemVersion` reply: the product type. -/
  productType : Except SerialError ProductType
  /-- `GetSystemFlags` reply: the flags word. -/
  systemFlags : Except SerialError Nat
  /-- `SelectRadioChannel` handshake outcome. -/
  selectResult : Except SerialError Unit
  /-- Whether the post-select silence poll observes the controller stop
  replying within the 8-second budget. -/
  disconnectConfirmed : Bool
  /-- The outcome of each attempt of the reconnect poll, by attempt index. -/
  reconnectAttempt : Nat → HandshakeAttempt
  /-- `GetFileMetadata` handshake reply for the slot's INI file. -/
  iniMetaReply : Except SerialError MetadataReply
  /-- `GetFileMetadata` handshake reply for the runtime image file. -/
  rtMetaReply : Except SerialError MetadataReply
  iniUploadResult : Except SerialError Unit
  rtUploadResult : Except SerialError Unit
  vptUploadResult : Except SerialError Unit

/-- Sequencing for oracle-driven steps: propagate the first error, concatenate
traces. -/
def bindE {α β : Type} (x : Except CliError α × Trace)
    (f : α → Except CliError β × Trace) : Except CliError β × Trace :=
  match x with
  | (.error e, tr) => (.error e, tr)
  | (.ok a, tr) => ((f a).1, List.append tr (f a).2)

/-- `brain_file_metadata` from `src/upload.rs`: an `Ack` yields the payload,
`NackProgramFile` (file not found) yields `none`, any other nack is an
error. -/
def brain_file_metadata (r : Except SerialError MetadataReply) :
    Except SerialError (Option FileMeta) :=
  match r with
  | .error e => .error e
  | .ok reply =>
    match reply.ack with
    | .ack => .ok reply.payload
    | .nackProgramFile => .ok none
    | a => .error (.nack a)

/-- `is_connection_wireless` from `src/upload.rs`: query system version and
system flags; the link is wireless iff the device is a controller and the
"tethered" bit (bit 8) is clear. -/
def is_connection_wireless (env : Env) : Except CliError Bool × Trace :=
  match env.productType with
  | .error e => (.error (.serial e), [.getSystemVersion])
  | .ok pt =>
    match env.systemFlags with
    | .error e => (.error (.serial e), [.getSystemVersion, .getSystemFlags])
    | .ok flags =>
      (.ok (!(flags.testBit 8) && decide (pt = ProductType.controller)),
        [.getSystemVersion, .getSystemFlags])

/-- The reconnect poll interval in milliseconds (`Duration::from_millis(250)`
in `switch_radio_channel`). -/
def RECONNECT_POLL_MS : Nat := 250

/-- The reconnect poll attempt bound (the retry count `32` passed to the
final `packet_handshake` in `switch_radio_channel`). -/
def RECONNECT_RETRIES : Nat := 32

/-- The bounded handshake of the transport crate (spec §6: "send a typed
request and await a typed reply with a configurable retry count and
per-attempt timeout"): try attempts in order, a timed-out attempt moves to
the next, a reply succeeds, another transport error passes through, and
exhausting all attempts yields `SerialError.timeout`. -/
def handshakeFrom : Nat → Nat → (Nat → HandshakeAttempt) → Except SerialError Unit
  | 0, _, _ => .error .timeout
  | n + 1, i, f =>
    match f i with
    | .timedOut => handshakeFrom n (i + 1) f
    | .replied => .ok ()
    | .failed e => .error e

/-- The early-return test of `switch_radio_channel`: channel code 5 is the
download channel, 31 is the pit channel, and -11 is the "already switched"
sentinel. -/
def alreadyOnChannel (ch : Int) (target : RadioChannel) : Bool :=
  (decide (ch = 5) && decide (target = RadioChannel.download)) ||
  (decide (ch = 31) && decide (target = RadioChannel.pit)) ||
  decide (ch = -11)

/-- `switch_radio_channel` from `src/upload.rs`: query the radio status and
return immediately if the reported channel already matches the target; over a
wireless link, issue the channel-select request, wait for confirmed silence
(else the disconnect-timeout error), then poll for reconnection with
`RECONNECT_RETRIES` attempts every `RECONNECT_POLL_MS` ms, mapping a final
timeout to the reconnect-timeout error and passing any other transport error
through; over a wired link, do nothing further. -/
def switch_radio_channel (env : Env) (target : RadioChannel) :
    Except CliError Unit × Trace :=
  match env.radioStatus with
  | .error e => (.error (.serial e), [.getRadioStatus])
  | .ok ch =>
    if alreadyOnChannel ch target then (.ok (), [.getRadioStatus])
    else
      match is_connection_wireless env with
      | (.error e, tr) => (.error e, .getRadioStatus :: tr)
      | (.ok wireless, tr) =>
        if wireless then
          match env.selectResult with
          | .error e =>
            (.error (.serial e), .getRadioStatus :: (tr ++ [.selectChannel target]))
          | .ok _ =>
            if !env.disconnectConfirmed then
              (.error .radioChannelDisconnectTimeout,
                .getRadioStatus :: (tr ++ [.selectChannel target]))
            else
              match handshakeFrom RECONNECT_RETRIES 0 env.reconnectAttempt with
              | .ok _ =>
                (.ok (), .getRadioStatus :: (tr ++ [.selectChannel target]))
              | .error .timeout =>
                (.error .radioChannelReconnectTimeout,
                  .getRadioStatus :: (tr ++ [.selectChannel target]))
              | .error e =>
                (.error (.serial e), .getRadioStatus :: (tr ++ [.selectChannel target]))
        else (.ok (), .getRadioStatus :: tr)

/-- The slot's INI file name `slot_{n}.ini`. -/
def slotIniName (slot : Nat) : List Char :=
  "slot_".toList ++ renderNat slot ++ ".ini".toList

/-- The program table's on-device file name `slot_{n}.bin`. -/
def slotBinName (slot : Nat) : List Char :=
  "slot_".toList ++ renderNat slot ++ ".bin".toList

/-- The data gathered before any device interaction: the parsed manifest and
runtime version. -/
structure Prepared where
  m : Manifest
  version : RtVersion

/-- The pre-connection stage of `upload`: spawn the connection task, then
find/read/parse the manifest, validate the slot range, and parse the declared
runtime version. -/
def prepare (env : Env) : Except CliError Prepared × Trace :=
  match env.manifestResult with
  | .error e => (.error e, [.connSpawn])
  | .ok m =>
    if ¬ (1 ≤ m.slot ∧ m.slot ≤ 8) then (.error .slotOutOfRange, [.connSpawn])
    else
      match env.versionResult with
      | .error e => (.error e, [.connSpawn])
      | .ok v => (.ok ⟨m, v⟩, [.connSpawn])

/-- The INI upload command built by `upload` (uploaded with
`FileExitAction::DoNothing` and no linked file). -/
def iniCmdOf (env : Env) (m : Manifest) : UploadCmd :=
  ⟨slotIniName m.slot, env.iniData, none, .doNothing⟩

/-- The runtime upload command built by `upload` (uploaded with
`FileExitAction::ShowRunScreen` and no linked file). -/
def rtCmdOf (v : RtVersion) (bin : List Nat) : UploadCmd :=
  ⟨rtFileName v, bin, none, .showRunScreen⟩

/-- The program-table upload command built by `upload`: file `slot_{n}.bin`,
`FileExitAction::ShowRunScreen`, and `linked_file: None`. -/
def vptCmdOf (m : Manifest) (vpt : List Nat) : UploadCmd :=
  ⟨slotBinName m.slot, vpt, none, .showRunScreen⟩

/-- The conditional INI transfer: performed exactly when the metadata request
reported the file as absent. -/
def iniStep (env : Env) (m : Manifest) (mi : Option FileMeta) :
    Except CliError Unit × Trace :=
  if mi.isNone then
    match env.iniUploadResult with
    | .error e => (.error (.serial e), [.uploadFile (iniCmdOf env m)])
    | .ok _ => (.ok (), [.uploadFile (iniCmdOf env m)])
  else (.ok (), [])

/-- The conditional runtime transfer: performed exactly when the metadata
request reported the file as absent; the background fetch task is awaited
only here. -/
def rtStep (env : Env) (v : RtVersion) (mr : Option FileMeta) :
    Except CliError Unit × Trace :=
  if mr.isNone then
    match env.fetchResult with
    | .error e => (.error e, [])
    | .ok bin =>
      match env.rtUploadResult with
      | .error e => (.error (.serial e), [.uploadFile (rtCmdOf v bin)])
      | .ok _ => (.ok (), [.uploadFile (rtCmdOf v bin)])
  else (.ok (), [])

/-- The unconditional program-table transfer. -/
def vptStep (env : Env) (m : Manifest) (vpt : List Nat) :
    Except CliError Unit × Trace :=
  match env.vptUploadResult with
  | .error e => (.error (.serial e), [.uploadFile (vptCmdOf m vpt)])
  | .ok _ => (.ok (), [.uploadFile (vptCmdOf m vpt)])

/-- The post-negotiation stage of `upload`: request remote metadata for the
INI file and the runtime image (an absent reply marks the file as needing
upload), then perform the transfers in the fixed order INI, runtime, program
table. -/
def transferStage (env : Env) (m : Manifest) (v : RtVersion) (vpt : List Nat) :
    Except CliError Unit × Trace :=
  match brain_file_metadata env.iniMetaReply with
  | .error e => (.error (.serial e), [.getFileMetadata (slotIniName m.slot)])
  | .ok mi =>
    match brain_file_metadata env.rtMetaReply with
    | .error e =>
      (.error (.serial e),
        [.getFileMetadata (slotIniName m.slot), .getFileMetadata (rtFileName v)])
    | .ok mr =>
      bindE (.ok (),
          [.getFileMetadata (slotIniName m.slot), .getFileMetadata (rtFileName v)])
        fun _ =>
      bindE (iniStep env m mi) fun _ =>
      bindE (rtStep env v mr) fun _ =>
      vptStep env m vpt

/-- `upload` from `src/upload.rs`: spawn the connection task; prepare (manifest,
slot validation, version); build the program table; await the connection;
negotiate the download radio channel; then run the metadata checks and the
ordered transfers. -/
def upload (env : Env) : Except CliError Unit × Trace :=
  bindE (prepare env) fun p =>
  bindE (env.buildResult, []) fun vpt =>
  bindE (env.connResult.map (fun _ => ()), [.connAwait]) fun _ =>
  bindE (switch_radio_channel env .download) fun _ =>
  transferStage env p.m p.version vpt

/-- The upload commands issued in a trace, in order. -/
def uploadCmds (tr : List UploadEvent) : List UploadCmd :=
  tr.filterMap fun e =>
    match e with
    | .uploadFile c => some c
    | _ => none

/-- How many upload commands in a trace target a given file name. -/
def uploadCountFor (tr : List UploadEvent) (name : List Char) : Nat :=
  ((uploadCmds tr).filter fun c => decide (c.filename = name)).length

/-- Following the spec's words ("treat not-found or a checksum mismatch
against local candidate content as needs-upload"): the upload decision the
spec describes, for comparison with the code's decision. -/
def spec_needs_upload (remote : Option FileMeta) (localCrc : Nat) : Bool :=
  match remote with
  | none => true
  | some meta => decide (meta.crc32 ≠ localCrc)

/-! ## Auxiliary notions used by the statements -/

/-- Join path/name segments with a separator character. -/
def joinSep (c : Char) : List (List Char) → List Char
  | [] => []
  | [s] => s
  | s :: s2 :: rest => s ++ c :: joinSep c (s2 :: rest)

/-- The value of a little-endian list of decimal digits. -/
def valLE : List Nat → Nat
  | [] => 0
  | d :: ds => d + 10 * valLE ds

/-! ## Concrete fixtures for counterexamples and witnesses -/

/-- A well-formed manifest used by the concrete runs below. -/
def demoManifest : Manifest := ⟨"demo".toList, 3, 1⟩

/-- A baseline oracle describing a fully successful session: wired brain on
the sentinel channel, both remote files present, every command acknowledged. -/
def baseEnv : Env where
  manifestResult := .ok demoManifest
  versionResult := .ok ⟨1, 2, 3⟩
  buildResult := .ok [9, 9]
  fetchResult := .ok [7]
  connResult := .ok ()
  iniData := [5, 5]
  radioStatus := .ok (-11)
  productType := .ok .brain
  systemFlags := .ok 0
  selectResult := .ok ()
  disconnectConfirmed := true
  reconnectAttempt := fun _ => .timedOut
  iniMetaReply := .ok ⟨.ack, some ⟨111⟩⟩
  rtMetaReply := .ok ⟨.ack, some ⟨42⟩⟩
  iniUploadResult := .ok ()
  rtUploadResult := .ok ()
  vptUploadResult := .ok ()

/-- A session in which the remote INI file exists with reported checksum 111
while the local candidate's digest is 222 (a mismatch), and the remote
runtime also exists. -/
def envIniMismatch : Env := baseEnv

/-- The digest of the local INI candidate in the mismatch scenario. -/
def localIniCrc : Nat := 222

/-- A session in which the remote INI file is absent (`NackProgramFile`) and
the remote runtime is present. -/
def envIniAbsent : Env :=
  { baseEnv with iniMetaReply := .ok ⟨.nackProgramFile, none⟩ }

/-- A session in which both the remote INI file and the remote runtime are
absent, so all three transfers run. -/
def envAllAbsent : Env :=
  { baseEnv with
    iniMetaReply := .ok ⟨.nackProgramFile, none⟩
    rtMetaReply := .ok ⟨.nackProgramFile, none⟩ }

/-- A session whose manifest declares slot 9 (out of range). -/
def envSlot9 : Env :=
  { baseEnv with manifestResult := .ok ⟨"demo".toList, 9, 1⟩ }

/-- A wireless controller on channel 0 whose reconnect poll never gets a
reply. -/
def envRadioSilent : Env :=
  { baseEnv with
    radioStatus := .ok 0
    productType := .ok .controller
    systemFlags := .ok 0 }

/-- A wired (tethered controller) link on channel 0. -/
def envRadioWired : Env :=
  { baseEnv with
    radioStatus := .ok 0
    productType := .ok .controller
    systemFlags := .ok 256 }

/-- A link already on the download channel (code 5). -/
def envRadioOnTarget : Env :=
  { baseEnv with radioStatus := .ok 5 }

/-- One non-stale module (artifact newer than source) for the rebuild
fixtures. -/
def freshModule : SrcModuleState where
  srcMtime := some 10
  buildMtime := some 20
  compileStarted := true
  compileOk := true
  stderr := ""
  artifact := [1, 2]
  relName := "mod".toList

/-- A build state with one up-to-date module and a cached table file. -/
def cachedBuildFs : BuildFs where
  manifestResult := .ok ()
  packageName := "app".toList
  modules := [freshModule]
  tableCache := some [3, 1, 4]

/-- A source tree whose root is marked, with an unmarked subdirectory that
contains a validly marked directory with a source file deeper inside. -/
def unmarkedSubTree : FsDir :=
  .node false ["stray.py"] [.node true ["deep.py"] []]

/-- The root of the scanner fixture. -/
def scannerTree : FsDir :=
  .node true ["root.py"] [unmarkedSubTree]

/-! ## Lemmas about decimal rendering and parsing -/

theorem digitsAux_lt_ten : ∀ fuel n d, d ∈ digitsAux fuel n → d < 10 := by
  intro fuel
  induction fuel with
  | zero => intro n d h; simp [digitsAux] at h
  | succ fuel ih =>
    intro n d h
    cases n with
    | zero => simp [digitsAux] at h
    | succ m =>
      simp only [digitsAux, List.mem_cons] at h
      rcases h with h | h
      · subst h; exact Nat.mod_lt _ (by omega)
      · exact ih _ _ h

theorem valLE_digitsAux : ∀ fuel n, n ≤ fuel → valLE (digitsAux fuel n) = n := by
  intro fuel
  induction fuel with
  | zero => intro n h; interval_cases n; simp [digitsAux, valLE]
  | succ fuel ih =>
    intro n h
    cases n with
    | zero => simp [digitsAux, valLE]
    | succ m =>
      have hdiv : (m + 1) / 10 ≤ fuel := by
        have := Nat.div_lt_self (n := m + 1) (k := 10) (by omega) (by omega)
        omega
      simp only [digitsAux, valLE, ih _ hdiv]
      omega

theorem charVal_digitChar : ∀ d, d < 10 → charVal (digitChar d) = d := by decide

theorem isDigit_digitChar : ∀ d, d < 10 → (digitChar d).isDigit = true := by decide

theorem foldl_digits :
    ∀ l : List Nat, (∀ d ∈ l, d < 10) → ∀ acc : Nat,
      ((l.map digitChar).reverse).foldl (fun a c => a * 10 + charVal c) acc =
        acc * 10 ^ l.length + valLE l := by
  intro l
  induction l with
  | nil => intro _ acc; simp [valLE]
  | cons d ds ih =>
    intro h acc
    have hd : d < 10 := h d (by simp)
    have hds : ∀ x ∈ ds, x < 10 := fun x hx => h x (by simp [hx])
    simp only [List.map_cons, List.reverse_cons, List.foldl_append, ih hds acc,
      List.foldl_cons, List.foldl_nil, charVal_digitChar d hd, valLE,
      List.length_cons, pow_succ]
    ring

theorem renderNat_all_digits (n : Nat) : ∀ c ∈ renderNat n, c.isDigit = true := by
  intro c hc
  by_cases h0 : n = 0
  · subst h0; simp [renderNat] at hc; subst hc; decide
  · simp only [renderNat, if_neg h0, List.mem_reverse, List.mem_map] at hc
    obtain ⟨d, hd, rfl⟩ := hc
    exact isDigit_digitChar d (digitsAux_lt_ten n n d hd)

theorem renderNat_ne_nil (n : Nat) : renderNat n ≠ [] := by
  by_cases h0 : n = 0
  · subst h0; simp [renderNat]
  · obtain ⟨m, rfl⟩ := Nat.exists_eq_succ_of_ne_zero h0
    simp [renderNat, digitsAux]

theorem dot_not_mem_renderNat (n : Nat) : '.' ∉ renderNat n := by
  intro h
  have := renderNat_all_digits n '.' h
  simp [Char.isDigit] at this

theorem parseU32_renderNat (n : Nat) (h : n < 4294967296) :
    parseU32 (renderNat n) = some n := by
  have hdig := renderNat_all_digits n
  have hne := renderNat_ne_nil n
  have hhead : ¬ (renderNat n).head? = some '+' := by
    intro hh
    have hmem : '+' ∈ renderNat n := by
      cases hs : renderNat n with
      | nil => rw [hs] at hh; simp at hh
      | cons a t =>
        rw [hs] at hh
        simp only [List.head?_cons, Option.some.injEq] at hh
        simp [hs, hh]
    have := hdig '+' hmem
    simp [Char.isDigit] at this
  have hall : (renderNat n).all Char.isDigit = true := List.all_eq_true.mpr hdig
  by_cases h0 : n = 0
  · subst h0; decide
  · obtain ⟨m, rfl⟩ := Nat.exists_eq_succ_of_ne_zero h0
    have hfold :
        (renderNat (m + 1)).foldl (fun a c => a * 10 + charVal c) 0 = m + 1 := by
      simp only [renderNat, if_neg h0]
      rw [foldl_digits _ (fun d hd => digitsAux_lt_ten _ _ d hd) 0]
      simp [valLE_digitsAux (m + 1) (m + 1) le_rfl]
    simp only [parseU32, if_neg hhead, if_neg hne, hall, if_true, hfold, if_pos h]

/-! ## Lemmas about `splitOnChar` -/

theorem splitOnChar_ne_nil (c : Char) (l : List Char) : splitOnChar c l ≠ [] := by
  cases l with
  | nil => simp [splitOnChar]
  | cons x xs =>
    simp only [splitOnChar]
    split
    · simp
    · split <;> simp

theorem splitOnChar_not_mem (c : Char) (l : List Char) (h : c ∉ l) :
    splitOnChar c l = [l] := by
  induction l with
  | nil => rfl
  | cons x xs ih =>
    have hx : ¬ x = c := fun hxc => h (by simp [hxc])
    have hxs : c ∉ xs := fun hc => h (by simp [hc])
    simp [splitOnChar, ih hxs, hx]

theorem splitOnChar_append (c : Char) (a rest : List Char) (h : c ∉ a) :
    splitOnChar c (a ++ c :: rest) = a :: splitOnChar c rest := by
  induction a with
  | nil =>
    rcases hs : splitOnChar c rest with _ | ⟨y, ys⟩
    · exact absurd hs (splitOnChar_ne_nil c rest)
    · simp [splitOnChar, hs]
  | cons x a' ih =>
    have hx : ¬ x = c := fun hxc => h (by simp [hxc])
    have ha' : c ∉ a' := fun hc => h (by simp [hc])
    simp [splitOnChar, ih ha', hx]

/-! ## Round-trip of runtime file names (claim C10 machinery) -/

theorem rtVersionFromStr_display (v : RtVersion)
    (h1 : v.major < 4294967296) (h2 : v.minor < 4294967296)
    (h3 : v.patch < 4294967296) :
    rtVersionFromStr (rtVersionDisplay v) = .ok v := by
  have hsplit :
      splitOnChar '.' (renderNat v.major ++
          ('.' :: (renderNat v.minor ++ ('.' :: renderNat v.patch)))) =
        [renderNat v.major, renderNat v.minor, renderNat v.patch] := by
    rw [splitOnChar_append '.' _ _ (dot_not_mem_renderNat _),
      splitOnChar_append '.' _ _ (dot_not_mem_renderNat _),
      splitOnChar_not_mem '.' _ (dot_not_mem_renderNat _)]
  simp only [rtVersionDisplay, rtVersionFromStr, hsplit,
    parseU32_renderNat _ h1, parseU32_renderNat _ h2, parseU32_renderNat _ h3,
    if_neg (by decide : ¬ 'v' ≠ 'v')]
  simp

theorem rtBinFromStr_rtFileName (v : RtVersion)
    (h1 : v.major < 4294967296) (h2 : v.minor < 4294967296)
    (h3 : v.patch < 4294967296) :
    rtBinFromStr (rtFileName v) = .ok ⟨v⟩ := by
  have hpre : rtBinPre.isPrefixOf (rtFileName v) = true := by
    apply List.isPrefixOf_iff_prefix.mpr
    rw [rtFileName, List.append_assoc]
    exact List.prefix_append _ _
  have hsuf : rtBinExt.isSuffixOf (rtFileName v) = true := by
    apply List.isSuffixOf_iff_suffix.mpr
    rw [rtFileName]
    exact List.suffix_append _ _
  have hdrop : (rtFileName v).drop rtBinPre.length = rtVersionDisplay v ++ rtBinExt := by
    rw [rtFileName, List.append_assoc, List.drop_left]
  have hlen : (rtFileName v).length - rtBinPre.length - rtBinExt.length =
      (rtVersionDisplay v).length := by
    simp [rtFileName, List.length_append]
  have htake :
      ((rtFileName v).drop rtBinPre.length).take
          ((rtFileName v).length - rtBinPre.length - rtBinExt.length) =
        rtVersionDisplay v := by
    rw [hdrop, hlen, List.take_left]
  simp [rtBinFromStr, hpre, hsuf, htake, rtVersionFromStr_display v h1 h2 h3]

/-- C10: runtime-image file names round-trip through `RtBin`'s `FromStr`
(the name `venice-v{major}.{minor}.{patch}.bin` written by `download` parses
back to exactly the same version), but `installed_versions` parses directory
entry names with `RtVersion`'s `FromStr`, which rejects every such file name
(the part after the leading `'v'` is `enice-...`, not a number), so the file
written by `download` for v1.2.3 is not recognized and the cache scan returns
the empty list. -/
theorem C10_thm :
    (∀ v : RtVersion, v.major < 4294967296 → v.minor < 4294967296 →
      v.patch < 4294967296 → rtBinFromStr (rtFileName v) = .ok ⟨v⟩) ∧
    rtVersionFromStr (rtFileName ⟨1, 2, 3⟩) = .error .invalidNumber ∧
    installed_versions [rtFileName ⟨1, 2, 3⟩] = [] := by
  refine ⟨fun v h1 h2 h3 => rtBinFromStr_rtFileName v h1 h2 h3, rfl, rfl⟩

/-- C10 witness: the round-trip instantiated at the concrete version 1.2.3. -/
theorem C10_witness : rtBinFromStr (rtFileName ⟨1, 2, 3⟩) = .ok ⟨⟨1, 2, 3⟩⟩ :=
  C10_thm.1 ⟨1, 2, 3⟩ (by decide) (by decide) (by decide)

/-- C7: the staleness check reports "needs rebuild" exactly when the source
modification time is not strictly older than the artifact's, and equal
timestamps count as stale. -/
theorem C7_thm (s b : Nat) :
    (needs_rebuild (some s) (some b) = true ↔ ¬ s < b) ∧
    needs_rebuild (some s) (some s) = true := by
  constructor
  · simp only [needs_rebuild, Option.getD_some, ge_iff_le, decide_eq_true_eq]
    omega
  · simp [needs_rebuild]

/-! ## Lemmas about `build_modules` and `build` (claim C5) -/

theorem build_modules_ok_rebuilt :
    ∀ (ms : List SrcModuleState) (acc : Bool) (n : Nat) (r : Bool) (c : Nat),
      build_modules ms acc n = .ok (r, c) →
      r = (acc || ms.any moduleNeedsRebuild) := by
  intro ms
  induction ms with
  | nil =>
    intro acc n r c h
    simp only [build_modules, Except.ok.injEq, Prod.mk.injEq] at h
    simp [← h.1]
  | cons m ms ih =>
    intro acc n r c h
    simp only [build_modules] at h
    by_cases hst : moduleNeedsRebuild m
    · rw [if_pos hst] at h
      split at h
      · exact absurd h (by simp)
      · have := ih true (n + 1) r c h
        simp [this, hst]
    · rw [if_neg hst] at h
      have := ih acc n r c h
      simp only [Bool.not_eq_true] at hst
      simp [this, hst]

theorem build_modules_no_stale :
    ∀ (ms : List SrcModuleState) (acc : Bool) (n : Nat),
      (∀ m ∈ ms, moduleNeedsRebuild m = false) →
      build_modules ms acc n = .ok (acc, n) := by
  intro ms
  induction ms with
  | nil => intro acc n _; rfl
  | cons m ms ih =>
    intro acc n h
    have hm : moduleNeedsRebuild m = false := h m (by simp)
    simp only [build_modules, hm, Bool.false_eq_true, if_false]
    exact ih acc n (fun x hx => h x (by simp [hx]))

/-- C5: amongst successful builds, the table is regenerated exactly when some
module was rebuilt or no cached table file exists; when it is not
regenerated the previously written bytes are returned unchanged; and a build
with no stale module and an existing cached table performs zero compiler
invocations and returns exactly the cached bytes. -/
theorem C5_thm (fs : BuildFs) (out : BuildOut) (h : build fs = .ok out) :
    out.regenerated = (fs.modules.any moduleNeedsRebuild || fs.tableCache.isNone) ∧
    (∀ b, fs.tableCache = some b → out.regenerated = false → out.bytes = b) ∧
    ((∀ m ∈ fs.modules, moduleNeedsRebuild m = false) →
      ∀ b, fs.tableCache = some b → out = ⟨b, false, 0⟩) := by
  simp only [build] at h
  split at h
  · exact absurd h (by simp)
  · rename_i hman
    split at h
    · exact absurd h (by simp)
    · rename_i rebuilt calls hbm
      have hr := build_modules_ok_rebuilt fs.modules false 0 rebuilt calls hbm
      simp only [Bool.false_or] at hr
      split at h
      · rename_i htc
        simp only [Except.ok.injEq] at h
        subst h
        refine ⟨by simp [htc], ?_, ?_⟩
        · intro b hb; rw [htc] at hb; exact absurd hb (by simp)
        · intro _ b hb; rw [htc] at hb; exact absurd hb (by simp)
      · rename_i cached htc
        split at h
        · rename_i hreb
          simp only [Except.ok.injEq] at h
          subst h
          refine ⟨by simp [htc, ← hr, hreb], ?_, ?_⟩
          · intro b hb hregen; exact absurd hregen (by simp)
          · intro hnostale b hb
            have := build_modules_no_stale fs.modules false 0 hnostale
            rw [this] at hbm
            simp only [Except.ok.injEq, Prod.mk.injEq] at hbm
            rw [← hbm.1] at hreb
            exact absurd hreb (by simp)
        · rename_i hreb
          simp only [Bool.not_eq_true] at hreb
          simp only [Except.ok.injEq] at h
          subst h
          refine ⟨by simp [htc, ← hr, hreb], ?_, ?_⟩
          · intro b hb _
            rw [htc] at hb
            simp only [Option.some.injEq] at hb
            simp [hb]
          · intro hnostale b hb
            have := build_modules_no_stale fs.modules false 0 hnostale
            rw [this] at hbm
            simp only [Except.ok.injEq, Prod.mk.injEq] at hbm
            rw [htc] at hb
            simp only [Option.some.injEq] at hb
            simp [hb, hbm.2]

/-- C5 witness: for the concrete cached build state (one fresh module, cached
table bytes `[3, 1, 4]`) the build is not a regeneration. -/
theorem C5_witness :
    (BuildOut.mk [3, 1, 4] false 0).regenerated =
      (cachedBuildFs.modules.any moduleNeedsRebuild || cachedBuildFs.tableCache.isNone) ∧
    BuildOut.mk [3, 1, 4] false 0 = ⟨[3, 1, 4], false, 0⟩ :=
  ⟨(C5_thm cachedBuildFs ⟨[3, 1, 4], false, 0⟩ rfl).1,
    (C5_thm cachedBuildFs ⟨[3, 1, 4], false, 0⟩ rfl).2.2
      (by intro m hm; simp only [cachedBuildFs, List.mem_singleton] at hm; subst hm; rfl)
      [3, 1, 4] rfl⟩

/-! ## Lemmas about the module scanner (claim C6) -/

theorem findInSubdirs_mem_ex :
    ∀ (ts : List FsDir) (k : Nat) (pa : List Nat) (f : String),
      (pa, f) ∈ findInSubdirs ts k →
      ∃ j t' q, ts.get? j = some t' ∧ pa = (k + j) :: q ∧
        (q, f) ∈ find_modules_inner t' := by
  intro ts
  induction ts with
  | nil => intro k pa f h; simp [findInSubdirs] at h
  | cons t ts ih =>
    intro k pa f h
    simp only [findInSubdirs, List.mem_append, List.mem_map] at h
    rcases h with ⟨e, he, hpe⟩ | h
    · have hfst : k :: e.1 = pa := congrArg Prod.fst hpe
      have hsnd : e.2 = f := congrArg Prod.snd hpe
      refine ⟨0, t, e.1, by simp, ?_, ?_⟩
      · rw [← hfst, Nat.add_zero]
      · rw [← hsnd]
        simpa using he
    · obtain ⟨j, t', q, hget, hpa, hq⟩ := ih (k + 1) pa f h
      refine ⟨j + 1, t', q, by simpa using hget, ?_, hq⟩
      rw [hpa]
      congr 1
      omega

/-- C6: a directory subtree whose root lacks the package marker contributes
nothing to module discovery: no collected module's directory path extends the
path of an unmarked directory, no matter how deep or how validly marked its
descendants are. -/
theorem C6_thm :
    ∀ (p : List Nat) (t d : FsDir) (path : List Nat) (f : String),
      subtreeAt t p = some d → d.hasInit = false →
      (path, f) ∈ find_modules_inner t →
      ¬ ∃ rest, path = p ++ rest := by
  intro p
  induction p with
  | nil =>
    intro t d path f hsub hinit hmem hex
    simp only [subtreeAt, Option.some.injEq] at hsub
    subst hsub
    cases t with
    | node i files subs =>
      simp only [FsDir.hasInit] at hinit
      subst hinit
      simp [find_modules_inner] at hmem
  | cons i p' ih =>
    intro t d path f hsub hinit hmem hex
    obtain ⟨rest, rfl⟩ := hex
    cases t with
    | node init files subs =>
      cases init with
      | false => simp [find_modules_inner] at hmem
      | true =>
        simp only [find_modules_inner, if_true, List.mem_append, List.mem_map] at hmem
        rcases hmem with ⟨e, _, hpe⟩ | hmem
        · have hfst : ([] : List Nat) = i :: p' ++ rest := congrArg Prod.fst hpe
          simp at hfst
        · obtain ⟨j, t', q, hget, hpa, hq⟩ := findInSubdirs_mem_ex subs 0 _ f hmem
          simp only [Nat.zero_add, List.cons_append, List.cons.injEq] at hpa
          obtain ⟨rfl, hq'⟩ := hpa
          simp only [subtreeAt, hget] at hsub
          exact ih t' d (p' ++ rest) f hsub hinit (hq' ▸ hq) ⟨rest, rfl⟩

/-- C6 witness: in the concrete tree whose root is marked but whose only
subdirectory is unmarked (with a marked directory and a source file deeper
inside), the collected module `root.py` does not lie under the unmarked
subdirectory. -/
theorem C6_witness : ¬ ∃ rest : List Nat, ([] : List Nat) = [0] ++ rest :=
  C6_thm [0] scannerTree unmarkedSubTree [] "root.py" rfl rfl
    (by simp [scannerTree, find_modules_inner, findInSubdirs])

/-! ## Lemmas about the bounded handshake (claims C8/C9) -/

theorem handshakeFrom_timeout :
    ∀ (n i : Nat) (f : Nat → HandshakeAttempt),
      (∀ j, i ≤ j → j < i + n → f j = .timedOut) →
      handshakeFrom n i f = .error .timeout := by
  intro n
  induction n with
  | zero => intro i f _; rfl
  | succ n ih =>
    intro i f h
    have hi : f i = .timedOut := h i le_rfl (by omega)
    simp only [handshakeFrom, hi]
    exact ih (i + 1) f (fun j h1 h2 => h j (by omega) (by omega))

theorem handshakeFrom_failed :
    ∀ (n i k : Nat) (f : Nat → HandshakeAttempt) (e : SerialError),
      i ≤ k → k < i + n →
      (∀ j, i ≤ j → j < k → f j = .timedOut) → f k = .failed e →
      handshakeFrom n i f = .error e := by
  intro n
  induction n with
  | zero => intro i k f e h1 h2 _ _; exact absurd h2 (by omega)
  | succ n ih =>
    intro i k f e h1 h2 hall hk
    by_cases hik : k = i
    · subst hik
      simp [handshakeFrom, hk]
    · have hi : f i = .timedOut := hall i le_rfl (by omega)
      simp only [handshakeFrom, hi]
      exact ih (i + 1) k f e (by omega) (by omega)
        (fun j ha hb => hall j (by omega) hb) hk

theorem switch_radio_reaches_reconnect (env : Env) (target : RadioChannel)
    (ch : Int) (fl : Nat)
    (h1 : env.radioStatus = .ok ch)
    (h2 : alreadyOnChannel ch target = false)
    (h3 : env.productType = .ok .controller)
    (h4 : env.systemFlags = .ok fl)
    (hbit : fl.testBit 8 = false)
    (h5 : env.selectResult = .ok ())
    (h6 : env.disconnectConfirmed = true) :
    (switch_radio_channel env target).1 =
      (match handshakeFrom RECONNECT_RETRIES 0 env.reconnectAttempt with
       | .ok _ => .ok ()
       | .error .timeout => .error .radioChannelReconnectTimeout
       | .error e => .error (.serial e)) := by
  rcases hh : handshakeFrom RECONNECT_RETRIES 0 env.reconnectAttempt with e | u
  · cases e <;>
      simp [switch_radio_channel, h1, h2, is_connection_wireless, h3, h4, hbit,
        h5, h6, hh]
  · simp [switch_radio_channel, h1, h2, is_connection_wireless, h3, h4, hbit,
      h5, h6, hh]

/-- C8: after confirmed silence, if all `RECONNECT_RETRIES` (32) reconnect
poll attempts time out, radio negotiation fails with the reconnect-timeout
error, a distinct error from the disconnect-timeout error; and if some
attempt fails with any other (non-timeout) transport error the error passes
through unchanged as a serial error. -/
theorem C8_thm (env : Env) (target : RadioChannel) (ch : Int) (fl : Nat)
    (h1 : env.radioStatus = .ok ch)
    (h2 : alreadyOnChannel ch target = false)
    (h3 : env.productType = .ok .controller)
    (h4 : env.systemFlags = .ok fl)
    (hbit : fl.testBit 8 = false)
    (h5 : env.selectResult = .ok ())
    (h6 : env.disconnectConfirmed = true) :
    ((∀ i, i < RECONNECT_RETRIES → env.reconnectAttempt i = .timedOut) →
      (switch_radio_channel env target).1 = .error .radioChannelReconnectTimeout) ∧
    (∀ i e, i < RECONNECT_RETRIES → e ≠ .timeout →
      (∀ j, j < i → env.reconnectAttempt j = .timedOut) →
      env.reconnectAttempt i = .failed e →
      (switch_radio_channel env target).1 = .error (.serial e)) ∧
    CliError.radioChannelReconnectTimeout ≠ CliError.radioChannelDisconnectTimeout := by
  have hred := switch_radio_reaches_reconnect env target ch fl h1 h2 h3 h4 hbit h5 h6
  refine ⟨?_, ?_, by decide⟩
  · intro hto
    rw [hred, handshakeFrom_timeout RECONNECT_RETRIES 0 env.reconnectAttempt
      (fun j _ hj => hto j (by omega))]
  · intro i e hi hne hprev hfe
    rw [hred, handshakeFrom_failed RECONNECT_RETRIES 0 i env.reconnectAttempt e
      (by omega) (by omega) (fun j _ hj => hprev j hj) hfe]
    cases e with
    | timeout => exact absurd rfl hne
    | nack a => rfl
    | other c => rfl

/-- C8 witness: the wireless fixture whose reconnect poll never succeeds
fails with exactly the reconnect-timeout error. -/
theorem C8_witness :
    (switch_radio_channel envRadioSilent RadioChannel.download).1 =
      .error .radioChannelReconnectTimeout :=
  (C8_thm envRadioSilent .download 0 0 rfl (by decide) rfl rfl (by decide) rfl
    rfl).1 (fun _ _ => rfl)

/-- C9: radio negotiation issues no channel-select request and reports
success both when the reported channel already matches the requested target
(per the fixed channel codes, sentinel included) and over a wired link (the
device is not an untethered controller). -/
theorem C9_thm (env : Env) (target : RadioChannel) (ch : Int)
    (h1 : env.radioStatus = .ok ch) :
    (alreadyOnChannel ch target = true →
      switch_radio_channel env target = (.ok (), [.getRadioStatus]) ∧
      ∀ c, UploadEvent.selectChannel c ∉ (switch_radio_channel env target).2) ∧
    (∀ pt fl, alreadyOnChannel ch target = false →
      env.productType = .ok pt → env.systemFlags = .ok fl →
      (!(fl.testBit 8) && decide (pt = ProductType.controller)) = false →
      switch_radio_channel env target =
        (.ok (), [.getRadioStatus, .getSystemVersion, .getSystemFlags]) ∧
      ∀ c, UploadEvent.selectChannel c ∉ (switch_radio_channel env target).2) := by
  constructor
  · intro hmatch
    have heq : switch_radio_channel env target = (.ok (), [.getRadioStatus]) := by
      simp [switch_radio_channel, h1, hmatch]
    refine ⟨heq, ?_⟩
    intro c hc
    rw [heq] at hc
    simp at hc
  · intro pt fl hmatch hpt hfl hwired
    have heq : switch_radio_channel env target =
        (.ok (), [.getRadioStatus, .getSystemVersion, .getSystemFlags]) := by
      simp [switch_radio_channel, h1, hmatch, is_connection_wireless, hpt, hfl,
        hwired]
    refine ⟨heq, ?_⟩
    intro c hc
    rw [heq] at hc
    simp at hc

/-- C9 witness: a link already on the download channel (code 5) and a
tethered (wired) controller each succeed, with traces free of channel-select
requests. -/
theorem C9_witness :
    (switch_radio_channel envRadioOnTarget RadioChannel.download =
        (.ok (), [.getRadioStatus]) ∧
      ∀ c, UploadEvent.selectChannel c ∉
        (switch_radio_channel envRadioOnTarget RadioChannel.download).2) ∧
    (switch_radio_channel envRadioWired RadioChannel.download =
        (.ok (), [.getRadioStatus, .getSystemVersion, .getSystemFlags]) ∧
      ∀ c, UploadEvent.selectChannel c ∉
        (switch_radio_channel envRadioWired RadioChannel.download).2) :=
  ⟨(C9_thm envRadioOnTarget .download 5 rfl).1 (by decide),
    (C9_thm envRadioWired .download 0 rfl).2 .controller 256 (by decide) rfl rfl
      (by decide)⟩

/-! ## Lemmas about the upload orchestrator (claims C1, C2, C3) -/

theorem switch_radio_no_uploads (env : Env) (target : RadioChannel) :
    uploadCmds (switch_radio_channel env target).2 = [] := by
  rcases hrs : env.radioStatus with e | ch
  · simp [switch_radio_channel, hrs, uploadCmds]
  · by_cases hmatch : alreadyOnChannel ch target
    · simp [switch_radio_channel, hrs, hmatch, uploadCmds]
    · rcases hpt : env.productType with e | pt
      · simp [switch_radio_channel, hrs, hmatch, is_connection_wireless, hpt,
          uploadCmds]
      · rcases hfl : env.systemFlags with e | fl
        · simp [switch_radio_channel, hrs, hmatch, is_connection_wireless, hpt,
            hfl, uploadCmds]
        · by_cases hw : (!(fl.testBit 8) && decide (pt = ProductType.controller)) = true
          · rcases hsel : env.selectResult with e | u
            · simp [switch_radio_channel, hrs, hmatch, is_connection_wireless,
                hpt, hfl, hw, hsel, uploadCmds]
            · by_cases hd : env.disconnectConfirmed
              · rcases hh : handshakeFrom RECONNECT_RETRIES 0 env.reconnectAttempt
                    with e | u
                · cases e <;>
                    simp [switch_radio_channel, hrs, hmatch,
                      is_connection_wireless, hpt, hfl, hw, hsel, hd, hh,
                      uploadCmds]
                · simp [switch_radio_channel, hrs, hmatch,
                    is_connection_wireless, hpt, hfl, hw, hsel, hd, hh,
                    uploadCmds]
              · simp [switch_radio_channel, hrs, hmatch, is_connection_wireless,
                  hpt, hfl, hw, hsel, hd, uploadCmds]
          · simp only [Bool.not_eq_true] at hw
            simp [switch_radio_channel, hrs, hmatch, is_connection_wireless,
              hpt, hfl, hw, uploadCmds]

theorem slotIniName_ne_rtFileName (s : Nat) (v : RtVersion) :
    slotIniName s ≠ rtFileName v := by
  intro h
  have h1 : (slotIniName s).head? = some 's' := rfl
  have h2 : (rtFileName v).head? = some 'v' := rfl
  rw [h, h2] at h1
  exact absurd h1 (by decide)

theorem slotBinName_ne_rtFileName (s : Nat) (v : RtVersion) :
    slotBinName s ≠ rtFileName v := by
  intro h
  have h1 : (slotBinName s).head? = some 's' := rfl
  have h2 : (rtFileName v).head? = some 'v' := rfl
  rw [h, h2] at h1
  exact absurd h1 (by decide)

theorem slotIniName_ne_slotBinName (s : Nat) :
    slotIniName s ≠ slotBinName s := by
  intro h
  simp only [slotIniName, slotBinName, List.append_assoc] at h
  have h2 := List.append_cancel_left h
  have h3 := List.append_cancel_left h2
  exact absurd h3 (by decide)

/-- A successful upload run performs the INI transfer exactly when the INI
metadata request reported the file absent, the runtime transfer exactly when
the runtime metadata request reported the file absent, and always ends with
the program-table transfer: the command list is fully determined. -/
theorem upload_ok_cmds (env : Env) (m : Manifest) (v : RtVersion)
    (vpt bin : List Nat) (rtr : Trace) (mi mr : Option FileMeta)
    (hm : env.manifestResult = .ok m)
    (hs : 1 ≤ m.slot ∧ m.slot ≤ 8)
    (hv : env.versionResult = .ok v)
    (hb : env.buildResult = .ok vpt)
    (hc : env.connResult = .ok ())
    (hr : switch_radio_channel env .download = (.ok (), rtr))
    (hmi : brain_file_metadata env.iniMetaReply = .ok mi)
    (hmr : brain_file_metadata env.rtMetaReply = .ok mr)
    (hf : env.fetchResult = .ok bin)
    (hui : env.iniUploadResult = .ok ())
    (hur : env.rtUploadResult = .ok ())
    (huv : env.vptUploadResult = .ok ()) :
    (upload env).1 = .ok () ∧
    uploadCmds (upload env).2 =
      (if mi.isNone then [iniCmdOf env m] else []) ++
      (if mr.isNone then [rtCmdOf v bin] else []) ++ [vptCmdOf m vpt] := by
  have hslot : ¬ ¬ (1 ≤ m.slot ∧ m.slot ≤ 8) := not_not_intro hs
  have hrtr : uploadCmds rtr = [] := by
    have := switch_radio_no_uploads env .download
    rw [hr] at this
    exact this
  simp only [uploadCmds] at hrtr
  rcases mi with _ | miv <;> rcases mr with _ | mrv <;>
    simp [upload, bindE, prepare, hm, hv, hb, hc, Except.map, hr, hslot,
      transferStage, hmi, hmr, iniStep, rtStep, vptStep, hf, hui, hur, huv,
      uploadCmds, List.filterMap_append, hrtr]

/-- C1 (amended): in a successful upload run, the INI file and the runtime
image are each transferred exactly once when the remote metadata request
reports the file as absent and exactly zero times when the remote file
exists — the reported remote checksum is never consulted. -/
theorem C1_thm (env : Env) (m : Manifest) (v : RtVersion)
    (vpt bin : List Nat) (rtr : Trace) (mi mr : Option FileMeta)
    (hm : env.manifestResult = .ok m)
    (hs : 1 ≤ m.slot ∧ m.slot ≤ 8)
    (hv : env.versionResult = .ok v)
    (hb : env.buildResult = .ok vpt)
    (hc : env.connResult = .ok ())
    (hr : switch_radio_channel env .download = (.ok (), rtr))
    (hmi : brain_file_metadata env.iniMetaReply = .ok mi)
    (hmr : brain_file_metadata env.rtMetaReply = .ok mr)
    (hf : env.fetchResult = .ok bin)
    (hui : env.iniUploadResult = .ok ())
    (hur : env.rtUploadResult = .ok ())
    (huv : env.vptUploadResult = .ok ()) :
    uploadCountFor (upload env).2 (slotIniName m.slot) =
      (if mi.isNone then 1 else 0) ∧
    uploadCountFor (upload env).2 (rtFileName v) =
      (if mr.isNone then 1 else 0) := by
  have hcmds := (upload_ok_cmds env m v vpt bin rtr mi mr hm hs hv hb hc hr hmi
    hmr hf hui hur huv).2
  have hne1 := slotIniName_ne_rtFileName m.slot v
  have hne2 := slotIniName_ne_slotBinName m.slot
  have hne3 := slotBinName_ne_rtFileName m.slot v
  unfold uploadCountFor
  rw [hcmds]
  rcases mi with _ | miv <;> rcases mr with _ | mrv <;>
    simp [iniCmdOf, rtCmdOf, vptCmdOf, List.filter, hne1, Ne.symm hne1, hne2,
      Ne.symm hne2, hne3, Ne.symm hne3]

/-- C1 witness: with the INI absent remotely and the runtime present, the run
issues exactly one INI upload and zero runtime uploads. -/
theorem C1_witness :
    uploadCountFor (upload envIniAbsent).2 (slotIniName demoManifest.slot) = 1 ∧
    uploadCountFor (upload envIniAbsent).2 (rtFileName ⟨1, 2, 3⟩) = 0 := by
  have h := C1_thm envIniAbsent demoManifest ⟨1, 2, 3⟩ [9, 9] [7]
    [.getRadioStatus] none (some ⟨42⟩) rfl (by decide) rfl rfl rfl rfl rfl rfl
    rfl rfl rfl rfl
  simpa using h

/-- C1 counterexample: the remote INI file exists with reported checksum 111
while the local candidate's digest is 222, so the spec's decision rule
demands an upload; the successful run nevertheless issues zero INI upload
commands, because the code only tests metadata presence and never compares
checksums. -/
theorem C1_counterexample :
    (upload envIniMismatch).1 = .ok () ∧
    envIniMismatch.iniMetaReply = .ok ⟨.ack, some ⟨111⟩⟩ ∧
    spec_needs_upload (some ⟨111⟩) localIniCrc = true ∧
    uploadCountFor (upload envIniMismatch).2 (slotIniName 3) = 0 :=
  ⟨rfl, rfl, rfl, rfl⟩

/-- C2 (amended): a manifest slot outside [1,8] makes `upload` fail with the
slot-out-of-range error before the connection task's result is awaited and
before any device request or transfer: the whole trace is the single
connection-task-spawn event (which does precede validation). -/
theorem C2_thm (env : Env) (m : Manifest)
    (hm : env.manifestResult = .ok m)
    (hs : ¬ (1 ≤ m.slot ∧ m.slot ≤ 8)) :
    (upload env).1 = .error .slotOutOfRange ∧
    (upload env).2 = [.connSpawn] := by
  constructor <;> simp [upload, bindE, prepare, hm, hs]

/-- C2 witness: the slot-9 fixture aborts with `SlotOutOfRange` having only
spawned the connection task. -/
theorem C2_witness :
    (upload envSlot9).1 = .error .slotOutOfRange ∧
    (upload envSlot9).2 = [.connSpawn] :=
  C2_thm envSlot9 ⟨"demo".toList, 9, 1⟩ rfl (by decide)

/-- C2 counterexample: with slot 9 the run does fail with the
slot-out-of-range error, but the connection-opening task has already been
spawned — a connection attempt is started before validation, refuting the
claim's "before any connection attempt is made". -/
theorem C2_counterexample :
    (upload envSlot9).1 = .error .slotOutOfRange ∧
    UploadEvent.connSpawn ∈ (upload envSlot9).2 :=
  ⟨rfl, by decide⟩

/-- C3 (amended): in every successful upload run the device transfers execute
strictly sequentially in the fixed order INI config (iff needed), runtime
image (iff needed), then program table; the program table is always
transferred, last — but it is not linked by name to the runtime image: its
upload command carries `linked_file: None`. -/
theorem C3_thm (env : Env) (m : Manifest) (v : RtVersion)
    (vpt bin : List Nat) (rtr : Trace) (mi mr : Option FileMeta)
    (hm : env.manifestResult = .ok m)
    (hs : 1 ≤ m.slot ∧ m.slot ≤ 8)
    (hv : env.versionResult = .ok v)
    (hb : env.buildResult = .ok vpt)
    (hc : env.connResult = .ok ())
    (hr : switch_radio_channel env .download = (.ok (), rtr))
    (hmi : brain_file_metadata env.iniMetaReply = .ok mi)
    (hmr : brain_file_metadata env.rtMetaReply = .ok mr)
    (hf : env.fetchResult = .ok bin)
    (hui : env.iniUploadResult = .ok ())
    (hur : env.rtUploadResult = .ok ())
    (huv : env.vptUploadResult = .ok ()) :
    uploadCmds (upload env).2 =
      (if mi.isNone then [iniCmdOf env m] else []) ++
      (if mr.isNone then [rtCmdOf v bin] else []) ++ [vptCmdOf m vpt] ∧
    (vptCmdOf m vpt).linkedFile = none :=
  ⟨(upload_ok_cmds env m v vpt bin rtr mi mr hm hs hv hb hc hr hmi hmr hf hui
      hur huv).2, rfl⟩

/-- C3 witness: with both remote files absent, the command list is exactly
INI, then runtime, then program table. -/
theorem C3_witness :
    uploadCmds (upload envAllAbsent).2 =
      [iniCmdOf envAllAbsent demoManifest, rtCmdOf ⟨1, 2, 3⟩ [7],
        vptCmdOf demoManifest [9, 9]] ∧
    (vptCmdOf demoManifest [9, 9]).linkedFile = none := by
  have h := C3_thm envAllAbsent demoManifest ⟨1, 2, 3⟩ [9, 9] [7]
    [.getRadioStatus] none none rfl (by decide) rfl rfl rfl rfl rfl rfl rfl rfl
    rfl rfl
  simpa using h

/-- C3 counterexample: in the concrete all-transfers run the program table's
upload command carries no linked file at all, in particular it is not linked
by name to the runtime image as the claim states. -/
theorem C3_counterexample :
    (upload envAllAbsent).1 = .ok () ∧
    uploadCmds (upload envAllAbsent).2 =
      [iniCmdOf envAllAbsent demoManifest, rtCmdOf ⟨1, 2, 3⟩ [7],
        vptCmdOf demoManifest [9, 9]] ∧
    (vptCmdOf demoManifest [9, 9]).linkedFile = none ∧
    ¬ (vptCmdOf demoManifest [9, 9]).linkedFile = some (rtFileName ⟨1, 2, 3⟩) :=
  ⟨rfl, rfl, rfl, by decide⟩

/-! ## Lemmas about module-name derivation (claim C4) -/

theorem python_name_def (pkg nm : List Char) :
    python_name pkg nm =
      (if ((pkg ++ PYTHON_MOD_SEP ::
          (if PACKAGE_INIT_NAME.isSuffixOf nm then
            nm.take (nm.length - PACKAGE_INIT_NAME.length) else nm)).map
          (fun c => if c = MAIN_SEPARATOR then PYTHON_MOD_SEP else c)).getLast? =
          some PYTHON_MOD_SEP then
        ((pkg ++ PYTHON_MOD_SEP ::
          (if PACKAGE_INIT_NAME.isSuffixOf nm then
            nm.take (nm.length - PACKAGE_INIT_NAME.length) else nm)).map
          (fun c => if c = MAIN_SEPARATOR then PYTHON_MOD_SEP else c)).dropLast
      else
        ((pkg ++ PYTHON_MOD_SEP ::
          (if PACKAGE_INIT_NAME.isSuffixOf nm then
            nm.take (nm.length - PACKAGE_INIT_NAME.length) else nm)).map
          (fun c => if c = MAIN_SEPARATOR then PYTHON_MOD_SEP else c))) := rfl

theorem joinSep_cons (c : Char) (a : List Char) (l : List (List Char))
    (h : l ≠ []) : joinSep c (a :: l) = a ++ c :: joinSep c l := by
  cases l with
  | nil => exact absurd rfl h
  | cons b t => rfl

theorem joinSep_append_last (c : Char) (dirs : List (List Char))
    (stem : List Char) (h : dirs ≠ []) :
    joinSep c (dirs ++ [stem]) = joinSep c dirs ++ c :: stem := by
  induction dirs with
  | nil => exact absurd rfl h
  | cons d ds ih =>
    cases ds with
    | nil => rfl
    | cons d2 ds' =>
      have hne : (d2 :: ds') ++ [stem] ≠ [] := by simp
      calc joinSep c ((d :: d2 :: ds') ++ [stem])
          = d ++ c :: joinSep c ((d2 :: ds') ++ [stem]) := rfl
        _ = d ++ c :: (joinSep c (d2 :: ds') ++ c :: stem) := by
            rw [ih (by simp)]
        _ = (d ++ c :: joinSep c (d2 :: ds')) ++ c :: stem := by simp
        _ = joinSep c (d :: d2 :: ds') ++ c :: stem := rfl

theorem map_sep_eq_self (l : List Char) (h : MAIN_SEPARATOR ∉ l) :
    l.map (fun c => if c = MAIN_SEPARATOR then PYTHON_MOD_SEP else c) = l := by
  induction l with
  | nil => rfl
  | cons x xs ih =>
    have hx : ¬ x = MAIN_SEPARATOR := fun hc => h (by simp [hc])
    have hxs : MAIN_SEPARATOR ∉ xs := fun hc => h (by simp [hc])
    simp [hx, ih hxs]

theorem map_sep_joinSep (segs : List (List Char))
    (h : ∀ s ∈ segs, MAIN_SEPARATOR ∉ s) :
    (joinSep MAIN_SEPARATOR segs).map
        (fun c => if c = MAIN_SEPARATOR then PYTHON_MOD_SEP else c) =
      joinSep PYTHON_MOD_SEP segs := by
  induction segs with
  | nil => rfl
  | cons s rest ih =>
    cases rest with
    | nil => exact map_sep_eq_self s (h s (by simp))
    | cons s2 rest' =>
      have hs : MAIN_SEPARATOR ∉ s := h s (by simp)
      have hrest : ∀ x ∈ s2 :: rest', MAIN_SEPARATOR ∉ x :=
        fun x hx => h x (by simp [hx])
      rw [joinSep_cons MAIN_SEPARATOR s (s2 :: rest') (by simp),
        joinSep_cons PYTHON_MOD_SEP s (s2 :: rest') (by simp),
        List.map_append, List.map_cons, map_sep_eq_self s hs, ih hrest]
      simp

theorem joinSep_getLast?_last (c : Char) (dirs : List (List Char))
    (stem : List Char) (h : stem ≠ []) :
    (joinSep c (dirs ++ [stem])).getLast? = stem.getLast? := by
  cases dirs with
  | nil => rfl
  | cons d ds =>
    rw [joinSep_append_last c (d :: ds) stem (by simp)]
    rw [show c :: stem = [c] ++ stem from rfl, ← List.append_assoc,
      List.getLast?_append_of_ne_nil _ h]

theorem init_not_suffix_join (dirs : List (List Char)) (stem : List Char)
    (hinit : PACKAGE_INIT_NAME.isSuffixOf stem = true → stem = PACKAGE_INIT_NAME)
    (hne : stem ≠ PACKAGE_INIT_NAME) :
    ¬ PACKAGE_INIT_NAME.isSuffixOf (joinSep MAIN_SEPARATOR (dirs ++ [stem])) = true := by
  intro h
  rw [List.isSuffixOf_iff_suffix] at h
  cases dirs with
  | nil =>
    have : PACKAGE_INIT_NAME <:+ stem := h
    exact hne (hinit (List.isSuffixOf_iff_suffix.mpr this))
  | cons d ds =>
    rw [joinSep_append_last _ _ _ (by simp)] at h
    have hsufStem : (MAIN_SEPARATOR :: stem) <:+
        (joinSep MAIN_SEPARATOR (d :: ds) ++ MAIN_SEPARATOR :: stem) :=
      List.suffix_append _ _
    rcases List.suffix_or_suffix_of_suffix h hsufStem with h1 | h1
    · rcases List.suffix_cons_iff.mp h1 with h2 | h2
      · have : MAIN_SEPARATOR ∈ PACKAGE_INIT_NAME := by
          rw [h2]; exact List.mem_cons_self _ _
        exact absurd this (by decide)
      · exact hne (hinit (List.isSuffixOf_iff_suffix.mpr h2))
    · have : MAIN_SEPARATOR ∈ PACKAGE_INIT_NAME :=
        h1.subset (List.mem_cons_self _ _)
      exact absurd this (by decide)

/-- C4: module-name derivation.  For a source file at relative path
`dirs/stem` (separator-joined, extension already dropped) under a root
declared as package `pkg`, the derived name is `pkg.dirs.stem` with path
separators replaced by dots — except that a package-marker stem `__init__`
is stripped together with its separator, so the marker file of a package
yields the package's dotted name itself (for the root package, `pkg` alone,
with no dangling separator). -/
theorem C4_thm (pkg stem : List Char) (dirs : List (List Char))
    (hpkg : MAIN_SEPARATOR ∉ pkg)
    (hdirs : ∀ d ∈ dirs, MAIN_SEPARATOR ∉ d)
    (hstem : MAIN_SEPARATOR ∉ stem)
    (hne : stem ≠ [])
    (hlast : stem.getLast? ≠ some PYTHON_MOD_SEP)
    (hinit : PACKAGE_INIT_NAME.isSuffixOf stem = true → stem = PACKAGE_INIT_NAME) :
    python_name pkg (joinSep MAIN_SEPARATOR (dirs ++ [stem])) =
      if stem = PACKAGE_INIT_NAME then joinSep PYTHON_MOD_SEP (pkg :: dirs)
      else joinSep PYTHON_MOD_SEP (pkg :: (dirs ++ [stem])) := by
  by_cases hcase : stem = PACKAGE_INIT_NAME
  · subst hcase
    rw [if_pos rfl]
    cases dirs with
    | nil =>
      have hsuf : PACKAGE_INIT_NAME.isSuffixOf
          (joinSep MAIN_SEPARATOR ([] ++ [PACKAGE_INIT_NAME])) = true :=
        List.isSuffixOf_iff_suffix.mpr (List.suffix_refl _)
      simp only [List.nil_append] at hsuf ⊢
      simp [python_name, hsuf, map_sep_eq_self pkg hpkg, joinSep]
    | cons d ds =>
      have hJ : joinSep MAIN_SEPARATOR ((d :: ds) ++ [PACKAGE_INIT_NAME]) =
          (joinSep MAIN_SEPARATOR (d :: ds) ++ [MAIN_SEPARATOR]) ++ PACKAGE_INIT_NAME := by
        rw [joinSep_append_last MAIN_SEPARATOR (d :: ds) PACKAGE_INIT_NAME (by simp)]
        simp
      have hsuf : PACKAGE_INIT_NAME.isSuffixOf
          (joinSep MAIN_SEPARATOR ((d :: ds) ++ [PACKAGE_INIT_NAME])) = true := by
        rw [List.isSuffixOf_iff_suffix, hJ]
        exact List.suffix_append _ _
      have htake : (joinSep MAIN_SEPARATOR ((d :: ds) ++ [PACKAGE_INIT_NAME])).take
          ((joinSep MAIN_SEPARATOR ((d :: ds) ++ [PACKAGE_INIT_NAME])).length -
            PACKAGE_INIT_NAME.length) =
          joinSep MAIN_SEPARATOR (d :: ds) ++ [MAIN_SEPARATOR] := by
        rw [hJ, List.length_append, Nat.add_sub_cancel, List.take_left]
      have hmap := map_sep_joinSep (d :: ds) hdirs
      rw [python_name_def, hsuf]
      simp only [if_true]
      rw [htake, List.map_append, List.map_cons, map_sep_eq_self pkg hpkg,
        List.map_append, hmap]
      simp only [ite_self, List.map_cons, List.map_nil,
        if_pos (rfl : MAIN_SEPARATOR = MAIN_SEPARATOR), if_true]
      have hassoc : pkg ++ PYTHON_MOD_SEP ::
          (joinSep PYTHON_MOD_SEP (d :: ds) ++ [PYTHON_MOD_SEP]) =
          (pkg ++ PYTHON_MOD_SEP :: joinSep PYTHON_MOD_SEP (d :: ds)) ++
            [PYTHON_MOD_SEP] := by simp
      rw [hassoc, List.getLast?_concat,
        if_pos (rfl : (some PYTHON_MOD_SEP : Option Char) = some PYTHON_MOD_SEP)]
      rw [List.dropLast_concat, ← joinSep_cons PYTHON_MOD_SEP pkg (d :: ds) (by simp)]
  · rw [if_neg hcase]
    have hnosuf : PACKAGE_INIT_NAME.isSuffixOf
        (joinSep MAIN_SEPARATOR (dirs ++ [stem])) = false :=
      (Bool.not_eq_true _).mp (init_not_suffix_join dirs stem hinit hcase)
    have hall : ∀ s ∈ dirs ++ [stem], MAIN_SEPARATOR ∉ s := by
      intro s hs
      rcases List.mem_append.mp hs with h | h
      · exact hdirs s h
      · simp only [List.mem_singleton] at h
        subst h
        exact hstem
    have hmap := map_sep_joinSep (dirs ++ [stem]) hall
    rw [python_name_def, hnosuf]
    simp only [Bool.false_eq_true, if_false]
    rw [List.map_append, List.map_cons, map_sep_eq_self pkg hpkg, hmap]
    simp only [ite_self]
    have hJl : (joinSep PYTHON_MOD_SEP (dirs ++ [stem])).getLast? = stem.getLast? :=
      joinSep_getLast?_last PYTHON_MOD_SEP dirs stem hne
    have hJne : joinSep PYTHON_MOD_SEP (dirs ++ [stem]) ≠ [] := by
      intro h0
      rw [h0] at hJl
      exact hne (List.getLast?_eq_none_iff.mp hJl.symm)
    have hgl : (pkg ++ PYTHON_MOD_SEP ::
        joinSep PYTHON_MOD_SEP (dirs ++ [stem])).getLast? = stem.getLast? := by
      rw [show (PYTHON_MOD_SEP :: joinSep PYTHON_MOD_SEP (dirs ++ [stem])) =
          [PYTHON_MOD_SEP] ++ joinSep PYTHON_MOD_SEP (dirs ++ [stem]) from rfl,
        ← List.append_assoc, List.getLast?_append_of_ne_nil _ hJne, hJl]
    rw [if_neg (by rw [hgl]; exact hlast)]
    rw [← joinSep_cons PYTHON_MOD_SEP pkg (dirs ++ [stem]) (by simp)]

/-- C4 witness: the spec's two naming scenarios.  A file `sub/mod.py` under a
root declared as package `app` yields `app.sub.mod`, and the root package's
own marker file `__init__.py` yields `app` with no dangling separator. -/
theorem C4_witness :
    python_name "app".toList
        (joinSep MAIN_SEPARATOR (["sub".toList] ++ ["mod".toList])) =
      joinSep PYTHON_MOD_SEP ("app".toList :: (["sub".toList] ++ ["mod".toList])) ∧
    python_name "app".toList (joinSep MAIN_SEPARATOR ([] ++ [PACKAGE_INIT_NAME])) =
      joinSep PYTHON_MOD_SEP ["app".toList] := by
  constructor
  · have h := C4_thm "app".toList "mod".toList ["sub".toList] (by decide)
      (by decide) (by decide) (by decide) (by decide) (by decide)
    rwa [if_neg (by decide)] at h
  · have h := C4_thm "app".toList PACKAGE_INIT_NAME [] (by decide) (by decide)
      (by decide) (by decide) (by decide) (by decide)
    rwa [if_pos rfl] at h

end VeniceCli
